import Mathlib

/-!
Verification of the AgentForge enhanced generation engine
(`AgentForgeEnhanced` in the repository core module).

Text is modelled at the JavaScript string level: a `String` is a sequence of
characters, regular-expression presence tests are embedded as executable
scanners over `List Char`, and JS truthiness of optional string fields is
made explicit (`jsOr`).  All functions are total Lean translations of the
source methods; exceptions of the source become `Except` values.
-/

namespace AgentForge

/-- The JS `\s` character class (ECMAScript WhiteSpace and LineTerminator). -/
def isJsSpace (c : Char) : Bool :=
  c = ' ' || c = '\t' || c = '\n' || c = '\r' || c.val = 0x0b || c.val = 0x0c ||
  c.val = 0xA0 || c.val = 0x1680 ||
  (0x2000 ≤ c.val && c.val ≤ 0x200A) ||
  c.val = 0x2028 || c.val = 0x2029 || c.val = 0x202F || c.val = 0x205F ||
  c.val = 0x3000 || c.val = 0xFEFF

/-- The JS `\w` character class. -/
def isJsWordChar (c : Char) : Bool :=
  ('a' ≤ c && c ≤ 'z') || ('A' ≤ c && c ≤ 'Z') || ('0' ≤ c && c ≤ '9') || c = '_'

/-- The single-quote character, used by the field-value regex. -/
def singleQuote : Char := Char.ofNat 39

/-- `stripLit lit l` returns `some rest` when `lit` is a prefix of `l`. -/
def stripLit : List Char → List Char → Option (List Char)
  | [], l => some l
  | _ :: _, [] => none
  | c :: cs, x :: xs => if x = c then stripLit cs xs else none

/-- `lit` is a literal prefix of `l`. -/
def isLitPrefix (lit l : List Char) : Bool := (stripLit lit l).isSome

/-- Does `m` hold on some suffix of `l`?  Embeds an unanchored regex search. -/
def anySuffix (m : List Char → Bool) : List Char → Bool
  | [] => m []
  | c :: rest => m (c :: rest) || anySuffix m rest

/-- JS `String.prototype.includes`: literal substring presence. -/
def containsLit (lit : String) (l : List Char) : Bool :=
  anySuffix (fun suf => isLitPrefix lit.data suf) l

/-- After skipping `\s*`, the next character is `tgt` (embeds `\s*X`). -/
def wsThen (tgt : Char) : List Char → Bool
  | [] => false
  | c :: rest => if c = tgt then true else if isJsSpace c then wsThen tgt rest else false

/-- JS `split('\n')` on a character sequence. -/
def splitNl : List Char → List (List Char)
  | [] => [[]]
  | c :: rest =>
    if c = '\n' then [] :: splitNl rest
    else
      match splitNl rest with
      | [] => [[c]]
      | h :: t => (c :: h) :: t

/-- JS `join('\n')` of a list of lines. -/
def joinLines : List (List Char) → List Char
  | [] => []
  | [l] => l
  | l :: rest => l ++ '\n' :: joinLines rest

/-- JS `Array.prototype.join(sep)` for strings. -/
def joinSep (sep : String) : List String → String
  | [] => ""
  | [x] => x
  | x :: y :: rest => x ++ sep ++ joinSep sep (y :: rest)

/-- Count the non-overlapping occurrences of `lit` in the list (fuel-indexed,
matching JS `split(lit).length - 1`). -/
def countLitGo (lit : List Char) : Nat → List Char → Nat
  | 0, _ => 0
  | _ + 1, [] => 0
  | n + 1, c :: rest =>
    match stripLit lit (c :: rest) with
    | some rem => 1 + countLitGo lit n rem
    | none => countLitGo lit n rest

/-- Non-overlapping occurrence count of `lit` in `l`. -/
def countLit (lit : String) (l : List Char) : Nat := countLitGo lit.data l.length l

/-- One pass of JS `replace(/\s+/g, '-')`: each maximal whitespace run becomes
one hyphen.  `prevWs` records whether the previous character was whitespace. -/
def collapseGo (prevWs : Bool) : List Char → List Char
  | [] => []
  | c :: rest =>
    if isJsSpace c then
      if prevWs then collapseGo true rest
      else '-' :: collapseGo true rest
    else c :: collapseGo false rest

/-- Trim JS whitespace from both ends (JS `String.prototype.trim`). -/
def trimChars (l : List Char) : List Char :=
  ((l.dropWhile isJsSpace).reverse.dropWhile isJsSpace).reverse

/-- JS `s.trim()`. -/
def jsTrimStr (s : String) : String := ⟨trimChars s.data⟩

/-- JS `x || dflt` for an optional string field: `undefined` and the empty
string are falsy and select the default. -/
def jsOr (o : Option String) (dflt : String) : String :=
  match o with
  | none => dflt
  | some s => if s = "" then dflt else s

/-! ## Data model (the exported interfaces of the core module) -/

structure SolanaIntegration where
  type : String
  functionality : List String
  deriving DecidableEq

/-- `SkillGenerationRequest`.  `framework` and `complexity` are string-typed
unions in the source; they are modelled as runtime strings since the claims
quantify over out-of-enumeration runtime values. -/
structure SkillGenerationRequest where
  description : String
  framework : String
  features : List String
  integrations : Option (List String)
  complexity : Option String
  solanaFeatures : Option (List SolanaIntegration)
  deriving DecidableEq

structure SkillTemplate where
  name : String
  content : String
  deriving DecidableEq

structure ProgramConfig where
  name : String
  address : String
  deriving DecidableEq

structure TokenConfig where
  symbol : String
  mint : String
  decimals : Nat
  deriving DecidableEq

structure SolanaConfig where
  network : String
  programs : List ProgramConfig
  tokens : List TokenConfig
  deriving DecidableEq

/-- The embedded `agentforge` summary block of `SkillMetadata`. -/
structure AgentforgeMeta where
  generated : Bool
  quality_score : Int
  complexity : String
  features : List String
  deriving DecidableEq

structure SkillMetadata where
  name : String
  description : String
  version : String
  author : String
  tags : List String
  agentforge : AgentforgeMeta
  deriving DecidableEq

structure CodeFile where
  filename : String
  content : String
  type : String
  purpose : String
  deriving DecidableEq

structure TestFile where
  filename : String
  content : String
  type : String
  coverage : Option Nat
  deriving DecidableEq

structure ValidationResult where
  isValid : Bool
  errors : List String
  warnings : List String
  suggestions : List String
  score : Int
  security_score : Int
  performance_score : Int
  deriving DecidableEq

structure GeneratedSkill where
  skillMd : String
  metadata : SkillMetadata
  codeFiles : List CodeFile
  dependencies : List String
  testFiles : List TestFile
  validationResult : ValidationResult
  solanaConfig : Option SolanaConfig
  deriving DecidableEq

/-! ## `generateSkillName` -/

/-- The character class kept by `replace(/[^a-z0-9\s]/g, '')`. -/
def keepNameChar (c : Char) : Bool :=
  ('a' ≤ c && c ≤ 'z') || ('0' ≤ c && c ≤ '9') || isJsSpace c

/-- `generateSkillName`: lowercase, strip everything outside `[a-z0-9\s]`,
collapse `\s+` runs to single hyphens, truncate to 50 characters. -/
def generateSkillName (description : String) : String :=
  ⟨(collapseGo false ((description.data.map Char.toLower).filter keepNameChar)).take 50⟩

/-! ## Prompt composition (`buildEnhancedPrompt`) -/

/-- The `complexityGuidelines` object literal: a three-key string map. -/
def complexityGuidelines (key : String) : Option String :=
  if key = "simple" then
    some "Focus on single responsibility, minimal dependencies, easy to understand"
  else if key = "intermediate" then
    some "Include error handling, configuration options, moderate complexity"
  else if key = "advanced" then
    some "Full feature set, comprehensive error handling, extensible architecture"
  else none

/-- The `frameworkSpecifics` object literal: a three-key string map. -/
def frameworkSpecifics (key : String) : Option String :=
  if key = "openclaw" then
    some "Use OpenClaw conventions, leverage available tools, integrate with OpenClaw ecosystem"
  else if key = "langchain" then
    some "Follow LangChain patterns, use chains and agents appropriately"
  else if key = "autogen" then
    some "Implement multi-agent conversation patterns, use AutoGen framework"
  else none

/-- `complexityGuidelines[request.complexity || 'intermediate']` as it is
interpolated into the template literal: a missing key yields JS `undefined`,
which stringifies to `"undefined"`. -/
def complexityGuidelineFor (request : SkillGenerationRequest) : String :=
  (complexityGuidelines (jsOr request.complexity "intermediate")).getD "undefined"

/-- The conditional Solana instruction block of the prompt. -/
def solanaRequirementsBlock : String :=
  "SOLANA REQUIREMENTS:\n- Include proper wallet connection handling\n- Use recommended RPC providers\n- Include transaction error handling\n- Add slippage and fee considerations\n- Include network selection (mainnet/devnet)\n"

/-- `buildEnhancedPrompt(request, template)`: the exact template literal of the
source, with each `interp` made explicit. -/
def buildEnhancedPrompt (request : SkillGenerationRequest) (template : SkillTemplate) : String :=
  let integrationsText :=
    match request.integrations with
    | none => "none"
    | some l => if joinSep ", " l = "" then "none" else joinSep ", " l
  let solana :=
    if (request.integrations.getD []).contains "solana" ||
       (request.integrations.getD []).contains "jupiter" then solanaRequirementsBlock else ""
  "Generate a production-ready " ++ request.framework ++ " skill for: \"" ++
    request.description ++ "\"\n\nREQUIREMENTS:\n- Framework: " ++ request.framework ++
    "\n- Features: " ++ joinSep ", " request.features ++
    "\n- Complexity: " ++ jsOr request.complexity "intermediate" ++
    "\n- Integrations: " ++ integrationsText ++
    "\n\nCOMPLEXITY GUIDELINES:\n" ++ complexityGuidelineFor request ++
    "\n\nFRAMEWORK SPECIFICS:\n" ++ (frameworkSpecifics request.framework).getD "undefined" ++
    "\n\nMANDATORY REQUIREMENTS:\n1. Include complete YAML frontmatter with all metadata\n2. Provide comprehensive documentation with examples\n3. Include proper error handling and edge cases\n4. Add security considerations and best practices\n5. Include performance considerations\n6. Provide clear installation and usage instructions\n7. Include troubleshooting section\n8. Add links to relevant documentation\n\n" ++
    solana ++ "\n\nTEMPLATE STRUCTURE:\n" ++ template.content ++
    "\n\nGenerate the complete, production-ready skill.md file:"

/-! ## Template registry (`initializeEnhancedTemplates`) -/

/-- The body of the single registered template (the `openclaw` entry). -/
def openclawTemplateContent : String :=
  "---\nname: skill-name\ndescription: Brief description of what this skill does\nversion: 1.0.0\nauthor: AgentForge\ncategory: \"general\"\ntags: [\"tag1\", \"tag2\"]\ncomplexity: intermediate\nrequirements:\n  node: \">=18.0.0\"\n  openclaw: \">=2.0.0\"\ndependencies: \x7b\x7d\n---\n\n# Skill Name\n\nBrief description of the skill and its purpose.\n\n## Features\n\n- Feature 1\n- Feature 2\n- Feature 3\n\n## Installation\n\n```bash\n# Installation instructions\n```\n\n## Usage\n\n```javascript\n// Basic usage example\n```\n\n## Configuration\n\n| Option | Type | Default | Description |\n|--------|------|---------|-------------|\n| option1 | string | \"default\" | Description |\n\n## API Reference\n\n### Functions\n\n#### functionName(param)\n\nDescription of the function.\n\n**Parameters:**\n- `param` (type): Description\n\n**Returns:** Return type and description\n\n**Example:**\n```javascript\n// Example usage\n```\n\n## Error Handling\n\nCommon errors and how to handle them.\n\n## Performance Considerations\n\nTips for optimal performance.\n\n## Security Notes\n\nSecurity considerations and best practices.\n\n## Troubleshooting\n\nCommon issues and solutions.\n\n## Contributing\n\nHow to contribute to this skill.\n\n## License\n\nLicense information.\n"

/-- `initializeEnhancedTemplates`: the template map populated at construction.
Only the `openclaw` entry is ever registered. -/
def initializeEnhancedTemplates : List (String × SkillTemplate) :=
  [("openclaw", { name := "OpenClaw Skill Template", content := openclawTemplateContent })]

/-- `this.templates.get(framework)`. -/
def templatesGet (templates : List (String × SkillTemplate)) (framework : String) :
    Option SkillTemplate :=
  (templates.find? (fun p => p.1 == framework)).map (fun p => p.2)

/-! ## `postProcessSkillMd` -/

/-- JS `lines.findIndex((line, i) => i > 0 && line === '---')`. -/
def findDashIdx : List (List Char) → Nat → Option Nat
  | [], _ => none
  | l :: rest, i =>
    if 0 < i ∧ l = "---".data then some i else findDashIdx rest (i + 1)

/-- `postProcessSkillMd(content, request)`: ensure a leading frontmatter
marker, then splice four AgentForge metadata lines right before the closing
`---` line.  `now` stands for `new Date().toISOString()`. -/
def postProcessSkillMd (content : String) (request : SkillGenerationRequest) (now : String) :
    String :=
  let c :=
    if isLitPrefix "---".data content.data then content.data
    else "---\n".data ++ content.data
  let lines := splitNl c
  let inserted : List (List Char) :=
    [("generated_by: AgentForge" : String).data,
     ("generation_date: " ++ now).data,
     ("complexity: " ++ jsOr request.complexity "intermediate").data,
     ("features: [" ++ joinSep ", " (request.features.map (fun f => "\"" ++ f ++ "\"")) ++ "]").data]
  match findDashIdx lines 0 with
  | some i => ⟨joinLines (lines.take i ++ inserted ++ lines.drop i)⟩
  | none => ⟨joinLines lines⟩

/-! ## Metadata extraction (`parseEnhancedMetadata`) -/

/-- The lazy body of the frontmatter regex (anchored `---`, lazy body, closing
`---`): the characters before the
first `\n---` occurrence. -/
def fmBody : List Char → Option (List Char)
  | [] => none
  | c :: rest =>
    if isLitPrefix "\n---".data (c :: rest) then some []
    else (fmBody rest).map (fun b => c :: b)

/-- The frontmatter match (anchored at the start of the string). -/
def extractFrontmatter (s : String) : Option (List Char) :=
  match stripLit "---\n".data s.data with
  | some rest => fmBody rest
  | none => none

/-- Case-insensitive literal prefix strip (the `i` regex flag); `lit` is given
in lowercase. -/
def stripLitCI : List Char → List Char → Option (List Char)
  | [], l => some l
  | _ :: _, [] => none
  | c :: cs, x :: xs => if x.toLower = c then stripLitCI cs xs else none

/-- Characters admitted by the value capture `[^"'\n]+`. -/
def fieldValueChar (c : Char) : Bool :=
  !(c = '"' || c = singleQuote || c = '\n')

/-- Try `["']?([^"'\n]+)` at a fixed position (quote preferred, as the regex
engine does). -/
def matchValueAt (rem : List Char) : Option (List Char) :=
  match rem with
  | [] => none
  | c :: rest =>
    if c = '"' || c = singleQuote then
      let cap := rest.takeWhile fieldValueChar
      if cap.isEmpty then none else some cap
    else
      let cap := rem.takeWhile fieldValueChar
      if cap.isEmpty then none else some cap

/-- Backtrack `\s*` from the greedy maximum down to zero (regex semantics of
`\s*["']?([^"'\n]+)`). -/
def matchValueBack (l : List Char) : Nat → Option (List Char)
  | 0 => matchValueAt l
  | k + 1 =>
    match matchValueAt (l.drop (k + 1)) with
    | some cap => some cap
    | none => matchValueBack l k

/-- Match `\s*["']?([^"'\n]+)` at the start of `l`. -/
def matchValue (l : List Char) : Option (List Char) :=
  matchValueBack l (l.takeWhile isJsSpace).length

/-- Match `field:\s*["']?([^"'\n]+)` at the start of `l` (case-insensitive). -/
def matchFieldAt (field : List Char) (l : List Char) : Option (List Char) :=
  match stripLitCI field l with
  | some (':' :: rest) => matchValue rest
  | _ => none

/-- Unanchored first-position search for the field pattern. -/
def searchField (field : List Char) : List Char → Option (List Char)
  | [] => none
  | c :: rest =>
    match matchFieldAt field (c :: rest) with
    | some cap => some cap
    | none => searchField field rest

/-- `parseField(field, defaultValue)`: first regex match, captured value
trimmed, empty/absent degrade to the default. -/
def parseField (field : String) (frontmatter : List Char) (dflt : String) : String :=
  match searchField field.data frontmatter with
  | some cap =>
    let t := trimChars cap
    if t.isEmpty then dflt else ⟨t⟩
  | none => dflt

/-- `parseEnhancedMetadata(skillMd, request)`: total — the `try` block's only
throw is the missing-frontmatter case, whose `catch` rebuilds the metadata
from request-derived defaults. -/
def parseEnhancedMetadata (skillMd : String) (request : SkillGenerationRequest) :
    SkillMetadata :=
  match extractFrontmatter skillMd with
  | some fm =>
    let name0 := parseField "name" fm ""
    let description0 := parseField "description" fm ""
    { name := if name0 = "" then generateSkillName request.description else name0,
      description := if description0 = "" then request.description else description0,
      version := parseField "version" fm "1.0.0",
      author := "AgentForge",
      tags := "generated" :: "agentforge" :: request.features,
      agentforge :=
        { generated := true, quality_score := 0,
          complexity := jsOr request.complexity "intermediate",
          features := request.features } }
  | none =>
    { name := generateSkillName request.description,
      description := request.description,
      version := "1.0.0",
      author := "AgentForge",
      tags := "generated" :: "agentforge" :: request.features,
      agentforge :=
        { generated := true, quality_score := 0,
          complexity := jsOr request.complexity "intermediate",
          features := request.features } }

/-! ## Validation engine -/

/-- `skillMd + codeFiles.map(f => f.content).join('\n')`. -/
def allContentOf (skillMd : String) (codeFiles : List CodeFile) : List Char :=
  skillMd.data ++ joinLines (codeFiles.map (fun f => f.content.data))

/-- `/eval\s*\(/` at a fixed position. -/
def evalAt (l : List Char) : Bool :=
  match stripLit "eval".data l with
  | some rest => wsThen '(' rest
  | none => false

/-- `/exec\s*\(/` at a fixed position. -/
def execAt (l : List Char) : Bool :=
  match stripLit "exec".data l with
  | some rest => wsThen '(' rest
  | none => false

/-- `/innerHTML\s*=/` at a fixed position. -/
def innerHTMLAt (l : List Char) : Bool :=
  match stripLit "innerHTML".data l with
  | some rest => wsThen '=' rest
  | none => false

/-- `/process\.env\.\w+/` at a fixed position. -/
def processEnvAt (l : List Char) : Bool :=
  match stripLit "process.env.".data l with
  | some (c :: _) => isJsWordChar c
  | _ => false

/-- Presence of `/eval\s*\(/` anywhere in the content. -/
def evalRiskTest (l : List Char) : Bool := anySuffix evalAt l

/-- Presence of `/exec\s*\(/` anywhere in the content. -/
def execRiskTest (l : List Char) : Bool := anySuffix execAt l

/-- Presence of `/innerHTML\s*=/` anywhere in the content. -/
def innerHTMLRiskTest (l : List Char) : Bool := anySuffix innerHTMLAt l

/-- Presence of `/process\.env\.\w+/` anywhere in the content. -/
def envRiskTest (l : List Char) : Bool := anySuffix processEnvAt l

/-- `!allContent.includes('try') && !allContent.includes('catch')`. -/
def noErrorHandling (content : List Char) : Bool :=
  !(containsLit "try" content || containsLit "catch" content)

structure SecurityIssues where
  critical : List String
  warnings : List String
  scoreDeduction : Nat
  deriving DecidableEq

/-- `validateSecurity(skillMd, codeFiles)`: the fixed pattern table, unrolled
in source order; every pattern match is pushed onto `critical`. -/
def validateSecurity (skillMd : String) (codeFiles : List CodeFile) : SecurityIssues :=
  let allContent := allContentOf skillMd codeFiles
  let e := evalRiskTest allContent
  let x := execRiskTest allContent
  let ih := innerHTMLRiskTest allContent
  let env := envRiskTest allContent
  let nh := noErrorHandling allContent
  { critical :=
      (if e then ["eval() usage detected - security risk"] else []) ++
      (if x then ["exec() usage detected - potential command injection"] else []) ++
      (if ih then ["innerHTML usage - potential XSS risk"] else []) ++
      (if env then ["Environment variable usage without validation"] else []),
    warnings := if nh then ["No error handling detected"] else [],
    scoreDeduction :=
      (if e then 30 else 0) + (if x then 25 else 0) + (if ih then 15 else 0) +
      (if env then 5 else 0) + (if nh then 10 else 0) }

structure PerformanceIssues where
  warnings : List String
  suggestions : List String
  scoreDeduction : Nat
  deriving DecidableEq

/-- `validatePerformance(skillMd, codeFiles)`. -/
def validatePerformance (skillMd : String) (codeFiles : List CodeFile) : PerformanceIssues :=
  let allContent := allContentOf skillMd codeFiles
  let leak := containsLit "setInterval" allContent && !containsLit "clearInterval" allContent
  let manyTimeouts := containsLit "setTimeout" allContent &&
    decide (5 ≤ countLit "setTimeout" allContent)
  { warnings := if leak then ["setInterval without clearInterval - potential memory leak"] else [],
    suggestions :=
      if manyTimeouts then ["Consider using async/await instead of multiple setTimeout calls"]
      else [],
    scoreDeduction := if leak then 10 else 0 }

structure DocScore where
  bonus : Int
  suggestions : List String
  deriving DecidableEq

/-- `validateDocumentation(skillMd)`. -/
def validateDocumentation (skillMd : String) : DocScore :=
  let d := skillMd.data
  { bonus :=
      (if containsLit "## Usage" d || containsLit "## Example" d then 5 else 0) +
      (if containsLit "## Installation" d then 3 else 0) +
      (if containsLit "## Troubleshooting" d || containsLit "## FAQ" d then 5 else 0) +
      (if containsLit "```" d then 3 else 0),
    suggestions :=
      if !containsLit "##" d then ["Consider adding section headers for better organization"]
      else [] }

/-- `enhancedValidation(skill)`: the three scoring passes combined into a
`ValidationResult`. -/
def enhancedValidation (skill : GeneratedSkill) : ValidationResult :=
  let hasFM := containsLit "---" skill.skillMd.data
  let nameMissing := skill.metadata.name = ""
  let sec := validateSecurity skill.skillMd skill.codeFiles
  let perf := validatePerformance skill.skillMd skill.codeFiles
  let doc := validateDocumentation skill.skillMd
  let qualityScore : Int :=
    100 - (if hasFM then 0 else 20) - (if nameMissing then 15 else 0) + doc.bonus
  let errors :=
    (if hasFM then [] else ["Missing YAML frontmatter"]) ++
    (if nameMissing then ["Missing skill name"] else []) ++ sec.critical
  { isValid := errors.isEmpty,
    errors := errors,
    warnings := sec.warnings ++ perf.warnings,
    suggestions := perf.suggestions ++ doc.suggestions,
    score := max 0 qualityScore,
    security_score := max 0 (100 - (sec.scoreDeduction : Int)),
    performance_score := max 0 (100 - (perf.scoreDeduction : Int)) }

/-! ## Request validation, stubs, orchestration -/

/-- `validateRequest(request)`: throws on empty/whitespace description or an
out-of-enumeration framework, nothing else. -/
def validateRequest (request : SkillGenerationRequest) : Except String Unit :=
  if jsTrimStr request.description = "" then
    Except.error "Skill description is required"
  else if request.framework ∈ (["openclaw", "langchain", "autogen"] : List String) then
    Except.ok ()
  else
    Except.error ("Unsupported framework: " ++ request.framework)

/-- `generateEnhancedCodeFiles`: the source body is `return []`. -/
def generateEnhancedCodeFiles (_request : SkillGenerationRequest)
    (_metadata : SkillMetadata) : List CodeFile := []

/-- `generateEnhancedTestFiles`: the source body is `return []`. -/
def generateEnhancedTestFiles (_request : SkillGenerationRequest)
    (_metadata : SkillMetadata) : List TestFile := []

/-- `extractEnhancedDependencies`: the source body is `return []`. -/
def extractEnhancedDependencies (_skillMd : String) (_codeFiles : List CodeFile)
    (_request : SkillGenerationRequest) : List String := []

/-- `generateSolanaConfig(request)`: static lookup of well-known programs. -/
def generateSolanaConfig (request : SkillGenerationRequest) : SolanaConfig :=
  let ints := request.integrations.getD []
  { network := "devnet",
    programs :=
      (if ints.contains "jupiter" then
        [{ name := "Jupiter V6", address := "JUP6LkbZbjS1jKKwapdHNy74zcZ3tLUZoi5QNyVTaV4" }]
       else []) ++
      (if ints.contains "pyth" then
        [{ name := "Pyth Oracle", address := "FsJ3A3u2vn5cTVofAjvy6y5kwABJAqYWpe4975bi2epH" }]
       else []),
    tokens := [] }

/-- The placeholder `validationResult` passed into `enhancedValidation`. -/
def defaultValidationResult : ValidationResult :=
  { isValid := true, errors := [], warnings := [], suggestions := [],
    score := 0, security_score := 0, performance_score := 0 }

/-- `generateSkill(request)`.  The text-generation provider is abstracted as a
function from the composed prompt to an optional completion (`none` models a
failed or empty provider response); `now` stands for the generation date.  The
second component counts provider invocations.  Every thrown error is wrapped
by the top-level catch into `Skill generation failed: ...`. -/
def generateSkill (templates : List (String × SkillTemplate))
    (provider : String → Option String) (now : String)
    (request : SkillGenerationRequest) : Except String GeneratedSkill × Nat :=
  match validateRequest request with
  | Except.error e => (Except.error ("Skill generation failed: " ++ e), 0)
  | Except.ok _ =>
    match templatesGet templates request.framework with
    | none =>
      (Except.error ("Skill generation failed: Template not found for framework: " ++
        request.framework), 0)
    | some template =>
      match provider (buildEnhancedPrompt request template) with
      | none => (Except.error "Skill generation failed: OpenAI returned empty response", 1)
      | some content =>
        let skillMd := postProcessSkillMd content request now
        let solanaConfig :=
          if (request.integrations.getD []).any
              (fun i => (["jupiter", "pyth", "metaplex"] : List String).contains i) then
            some (generateSolanaConfig request)
          else none
        let metadata := parseEnhancedMetadata skillMd request
        let codeFiles := generateEnhancedCodeFiles request metadata
        let testFiles := generateEnhancedTestFiles request metadata
        let dependencies := extractEnhancedDependencies skillMd codeFiles request
        let validationResult := enhancedValidation
          { skillMd := skillMd, metadata := metadata, codeFiles := codeFiles,
            dependencies := dependencies, testFiles := testFiles,
            validationResult := defaultValidationResult, solanaConfig := solanaConfig }
        (Except.ok
          { skillMd := skillMd, metadata := metadata, codeFiles := codeFiles,
            dependencies := dependencies, testFiles := testFiles,
            validationResult := validationResult, solanaConfig := solanaConfig }, 1)

/-- Is an `Except` value an error? -/
def isErr {α : Type} (e : Except String α) : Bool :=
  match e with
  | Except.error _ => true
  | Except.ok _ => false

/-- Does the string itself match one of the four risk patterns of
`validateSecurity` at its start (an occurrence of a risk pattern)? -/
def isRiskOccurrence (p : String) : Bool :=
  evalAt p.data || execAt p.data || innerHTMLAt p.data || processEnvAt p.data

/-! ## Concrete inputs used by counterexamples and witnesses -/

/-- A well-formed request (the spec's sample scenario). -/
def exReq : SkillGenerationRequest :=
  { description := "weather forecasting skill", framework := "openclaw", features := ["api"],
    integrations := none, complexity := none, solanaFeatures := none }

/-- A request with a whitespace-only description. -/
def wsReq : SkillGenerationRequest := { exReq with description := "   " }

/-- A valid request targeting the `langchain` framework. -/
def langReq : SkillGenerationRequest :=
  { description := "weather skill", framework := "langchain", features := [],
    integrations := none, complexity := none, solanaFeatures := none }

/-- A request carrying an unrecognized non-empty complexity value. -/
def c5req : SkillGenerationRequest := { exReq with complexity := some "expert" }

/-- A plain metadata value with a non-empty name. -/
def exMetadata : SkillMetadata :=
  { name := "x", description := "x", version := "1.0.0", author := "AgentForge",
    tags := [], agentforge :=
      { generated := true, quality_score := 0, complexity := "intermediate", features := [] } }

/-- A document earning every documentation bonus while triggering no
deduction of the quality pass. -/
def c1skill : GeneratedSkill :=
  { skillMd := "---\n## Usage\n## Installation\n## Troubleshooting\n```",
    metadata := exMetadata, codeFiles := [], dependencies := [], testFiles := [],
    validationResult := defaultValidationResult, solanaConfig := none }

/-- A document text referencing the same import path three times. -/
def c3doc : String :=
  "import a from \"lodash\"\nimport b from \"lodash\""

/-- A code file referencing the same import path once more. -/
def c3file : CodeFile :=
  { filename := "index.ts", content := "import c from \"lodash\"", type := "typescript",
    purpose := "main" }

/-- A skill whose only security finding is the environment-variable pattern. -/
def c4skill : GeneratedSkill :=
  { skillMd := "---\ntry\nprocess.env.API_KEY", metadata := exMetadata, codeFiles := [],
    dependencies := [], testFiles := [], validationResult := defaultValidationResult,
    solanaConfig := none }

/-- Baseline input of the security-monotonicity counterexample: empty document,
no code files. -/
def c9ex1 : GeneratedSkill :=
  { skillMd := "", metadata := exMetadata, codeFiles := [], dependencies := [],
    testFiles := [], validationResult := defaultValidationResult, solanaConfig := none }

/-- One additional occurrence of the environment-variable risk pattern, whose
matched `\w+` run happens to spell `trycatch`. -/
def c9file : CodeFile :=
  { filename := "a.ts", content := "process.env.trycatch", type := "typescript",
    purpose := "main" }

/-- The baseline plus the one additional risk-pattern occurrence. -/
def c9ex2 : GeneratedSkill := { c9ex1 with codeFiles := [c9file] }

/-- Baseline input of the security-monotonicity witness: contains `try`. -/
def c9wskill : GeneratedSkill :=
  { skillMd := "try", metadata := exMetadata, codeFiles := [], dependencies := [],
    testFiles := [], validationResult := defaultValidationResult, solanaConfig := none }

/-- An occurrence of the `eval` risk pattern, as an additional code file. -/
def c9wfile : CodeFile :=
  { filename := "b.ts", content := "eval(", type := "typescript", purpose := "main" }

/-- A fixed provider completion used to run the pipeline end to end. -/
def c10run : Except String GeneratedSkill × Nat :=
  generateSkill initializeEnhancedTemplates (fun _ => some "hello world")
    "2026-01-01T00:00:00.000Z" exReq

/-! ## Helper lemmas -/

theorem stripLit_append : ∀ (lit l m r : List Char),
    stripLit lit l = some m → stripLit lit (l ++ r) = some (m ++ r) := by
  intro lit
  induction lit with
  | nil =>
    intro l m r h
    simp [stripLit] at h
    subst h
    rfl
  | cons c cs ih =>
    intro l m r h
    cases l with
    | nil => simp [stripLit] at h
    | cons x xs =>
      by_cases hx : x = c
      · simp only [stripLit, if_pos hx] at h
        simpa only [List.cons_append, stripLit, if_pos hx] using ih xs m r h
      · simp [stripLit, hx] at h

theorem isLitPrefix_append (lit l r : List Char) (h : isLitPrefix lit l = true) :
    isLitPrefix lit (l ++ r) = true := by
  unfold isLitPrefix at h ⊢
  cases hm : stripLit lit l with
  | none => rw [hm] at h; simp at h
  | some m => rw [stripLit_append lit l m r hm]; rfl

theorem wsThen_append (t : Char) (l r : List Char) (h : wsThen t l = true) :
    wsThen t (l ++ r) = true := by
  induction l with
  | nil => simp [wsThen] at h
  | cons c rest ih =>
    by_cases hc : c = t
    · simp [wsThen, hc]
    · by_cases hs : isJsSpace c
      · simp only [wsThen, if_neg hc, if_pos hs] at h
        simp only [List.cons_append, wsThen, if_neg hc, if_pos hs]
        exact ih h
      · simp [wsThen, hc, hs] at h

theorem anySuffix_of_here (m : List Char → Bool) (l : List Char) (h : m l = true) :
    anySuffix m l = true := by
  cases l with
  | nil => simpa [anySuffix] using h
  | cons c rest => simp [anySuffix, h]

theorem anySuffix_append (m : List Char → Bool) (r : List Char)
    (hm : ∀ a, m a = true → m (a ++ r) = true) :
    ∀ l, anySuffix m l = true → anySuffix m (l ++ r) = true := by
  intro l
  induction l with
  | nil =>
    intro h
    simp only [anySuffix] at h
    exact anySuffix_of_here m ([] ++ r) (hm [] h)
  | cons c rest ih =>
    intro h
    simp only [anySuffix, Bool.or_eq_true] at h
    rcases h with h | h
    · exact anySuffix_of_here m ((c :: rest) ++ r) (hm (c :: rest) h)
    · have := ih h
      simp only [List.cons_append, anySuffix, Bool.or_eq_true]
      right
      simpa using this

theorem containsLit_append (lit : String) (l r : List Char)
    (h : containsLit lit l = true) : containsLit lit (l ++ r) = true := by
  unfold containsLit at h ⊢
  exact anySuffix_append _ r (fun a ha => isLitPrefix_append lit.data a r ha) l h

theorem evalAt_append (a r : List Char) (h : evalAt a = true) : evalAt (a ++ r) = true := by
  unfold evalAt at h ⊢
  cases hm : stripLit "eval".data a with
  | none => rw [hm] at h; simp at h
  | some rest =>
    rw [hm] at h
    rw [stripLit_append _ a rest r hm]
    exact wsThen_append '(' rest r h

theorem execAt_append (a r : List Char) (h : execAt a = true) : execAt (a ++ r) = true := by
  unfold execAt at h ⊢
  cases hm : stripLit "exec".data a with
  | none => rw [hm] at h; simp at h
  | some rest =>
    rw [hm] at h
    rw [stripLit_append _ a rest r hm]
    exact wsThen_append '(' rest r h

theorem innerHTMLAt_append (a r : List Char) (h : innerHTMLAt a = true) :
    innerHTMLAt (a ++ r) = true := by
  unfold innerHTMLAt at h ⊢
  cases hm : stripLit "innerHTML".data a with
  | none => rw [hm] at h; simp at h
  | some rest =>
    rw [hm] at h
    rw [stripLit_append _ a rest r hm]
    exact wsThen_append '=' rest r h

theorem processEnvAt_append (a r : List Char) (h : processEnvAt a = true) :
    processEnvAt (a ++ r) = true := by
  unfold processEnvAt at h ⊢
  cases hm : stripLit "process.env.".data a with
  | none => rw [hm] at h; simp at h
  | some rest =>
    rw [hm] at h
    rw [stripLit_append _ a rest r hm]
    cases rest with
    | nil => simp at h
    | cons c xs => simpa using h

theorem evalRiskTest_append (l r : List Char) (h : evalRiskTest l = true) :
    evalRiskTest (l ++ r) = true :=
  anySuffix_append evalAt r (fun a ha => evalAt_append a r ha) l h

theorem execRiskTest_append (l r : List Char) (h : execRiskTest l = true) :
    execRiskTest (l ++ r) = true :=
  anySuffix_append execAt r (fun a ha => execAt_append a r ha) l h

theorem innerHTMLRiskTest_append (l r : List Char) (h : innerHTMLRiskTest l = true) :
    innerHTMLRiskTest (l ++ r) = true :=
  anySuffix_append innerHTMLAt r (fun a ha => innerHTMLAt_append a r ha) l h

theorem envRiskTest_append (l r : List Char) (h : envRiskTest l = true) :
    envRiskTest (l ++ r) = true :=
  anySuffix_append processEnvAt r (fun a ha => processEnvAt_append a r ha) l h

theorem joinLines_concat (xs : List (List Char)) (p : List Char) :
    ∃ r, joinLines (xs ++ [p]) = joinLines xs ++ r := by
  induction xs with
  | nil => exact ⟨p, rfl⟩
  | cons l rest ih =>
    cases rest with
    | nil => exact ⟨'\n' :: p, rfl⟩
    | cons y ys =>
      obtain ⟨r, hr⟩ := ih
      refine ⟨r, ?_⟩
      show l ++ '\n' :: joinLines ((y :: ys) ++ [p]) = (l ++ '\n' :: joinLines (y :: ys)) ++ r
      rw [hr]
      simp

theorem allContentOf_concat (md : String) (files : List CodeFile) (f : CodeFile) :
    ∃ r, allContentOf md (files ++ [f]) = allContentOf md files ++ r := by
  obtain ⟨r, hr⟩ := joinLines_concat (files.map (fun g => g.content.data)) f.content.data
  refine ⟨r, ?_⟩
  unfold allContentOf
  rw [List.map_append]
  simp only [List.map_cons, List.map_nil]
  rw [hr, List.append_assoc]

theorem ite_ded_mono (t₁ t₂ : Bool) (d : Nat) (h : t₁ = true → t₂ = true) :
    (if t₁ then d else 0) ≤ (if t₂ then d else 0) := by
  cases t₁ <;> cases t₂ <;> simp_all

theorem docBonus_bounds (md : String) :
    0 ≤ (validateDocumentation md).bonus ∧ (validateDocumentation md).bonus ≤ 16 := by
  simp only [validateDocumentation]
  split_ifs <;> norm_num

theorem enhancedValidation_score (s : GeneratedSkill) :
    (enhancedValidation s).score =
      max 0 (100 - (if containsLit "---" s.skillMd.data then 0 else 20) -
        (if s.metadata.name = "" then 15 else 0) + (validateDocumentation s.skillMd).bonus) :=
  rfl

theorem enhancedValidation_security (s : GeneratedSkill) :
    (enhancedValidation s).security_score =
      max 0 (100 - ((validateSecurity s.skillMd s.codeFiles).scoreDeduction : Int)) :=
  rfl

theorem enhancedValidation_performance (s : GeneratedSkill) :
    (enhancedValidation s).performance_score =
      max 0 (100 - ((validatePerformance s.skillMd s.codeFiles).scoreDeduction : Int)) :=
  rfl

theorem enhancedValidation_errors (s : GeneratedSkill) :
    (enhancedValidation s).errors =
      (if containsLit "---" s.skillMd.data then [] else ["Missing YAML frontmatter"]) ++
      (if s.metadata.name = "" then ["Missing skill name"] else []) ++
      (validateSecurity s.skillMd s.codeFiles).critical :=
  rfl

theorem enhancedValidation_isValid (s : GeneratedSkill) :
    (enhancedValidation s).isValid = (enhancedValidation s).errors.isEmpty :=
  rfl

theorem validateSecurity_scoreDeduction (md : String) (cf : List CodeFile) :
    (validateSecurity md cf).scoreDeduction =
      (if evalRiskTest (allContentOf md cf) then 30 else 0) +
      (if execRiskTest (allContentOf md cf) then 25 else 0) +
      (if innerHTMLRiskTest (allContentOf md cf) then 15 else 0) +
      (if envRiskTest (allContentOf md cf) then 5 else 0) +
      (if noErrorHandling (allContentOf md cf) then 10 else 0) :=
  rfl

theorem validateSecurity_critical (md : String) (cf : List CodeFile) :
    (validateSecurity md cf).critical =
      (if evalRiskTest (allContentOf md cf) then ["eval() usage detected - security risk"] else []) ++
      (if execRiskTest (allContentOf md cf) then ["exec() usage detected - potential command injection"] else []) ++
      (if innerHTMLRiskTest (allContentOf md cf) then ["innerHTML usage - potential XSS risk"] else []) ++
      (if envRiskTest (allContentOf md cf) then ["Environment variable usage without validation"] else []) :=
  rfl

theorem validatePerformance_ded_bound (md : String) (cf : List CodeFile) :
    (validatePerformance md cf).scoreDeduction ≤ 10 := by
  simp only [validatePerformance]
  split_ifs <;> norm_num

theorem collapseGo_mem_good : ∀ (l : List Char) (b : Bool) (c : Char),
    (∀ x ∈ l, keepNameChar x = true) → c ∈ collapseGo b l →
    ('a' ≤ c ∧ c ≤ 'z') ∨ ('0' ≤ c ∧ c ≤ '9') ∨ c = '-' := by
  intro l
  induction l with
  | nil =>
    intro b c _ hc
    simp [collapseGo] at hc
  | cons d rest ih =>
    intro b c hall hc
    have hd : keepNameChar d = true := hall d (by simp)
    have htail : ∀ x ∈ rest, keepNameChar x = true := fun x hx => hall x (by simp [hx])
    by_cases hsp : isJsSpace d = true
    · simp only [collapseGo, if_pos hsp] at hc
      cases b with
      | true => exact ih true c htail hc
      | false =>
        rcases List.mem_cons.mp hc with hc | hc
        · subst hc
          exact Or.inr (Or.inr rfl)
        · exact ih true c htail hc
    · simp only [collapseGo, if_neg hsp] at hc
      rcases List.mem_cons.mp hc with hc | hc
      · subst hc
        simp only [keepNameChar, Bool.or_eq_true, Bool.and_eq_true, decide_eq_true_eq] at hd
        rcases hd with (h | h) | h
        · exact Or.inl h
        · exact Or.inr (Or.inl h)
        · exact absurd h hsp
      · exact ih false c htail hc

/-! ## Claims -/

/-- C1 (counterexample): a document carrying every documentation bonus and no
quality deduction receives quality score 116 — the quality score is only
clamped below at 0, never above at 100, so it does not lie in [0,100]. -/
theorem c1_counterexample :
    (enhancedValidation c1skill).score = 116 ∧ 100 < (enhancedValidation c1skill).score :=
  ⟨by decide, by decide⟩

/-- C1 (amended): for every input to the validation engine, the security and
performance scores lie in [0,100]; the quality score lies in [0,116] (it is
clamped below at 0 but can exceed 100 by the documentation bonuses, whose sum
is at most 16). -/
theorem c1_amended_scores (s : GeneratedSkill) :
    (0 ≤ (enhancedValidation s).score ∧ (enhancedValidation s).score ≤ 116) ∧
    (0 ≤ (enhancedValidation s).security_score ∧ (enhancedValidation s).security_score ≤ 100) ∧
    (0 ≤ (enhancedValidation s).performance_score ∧
      (enhancedValidation s).performance_score ≤ 100) := by
  obtain ⟨hb0, hb16⟩ := docBonus_bounds s.skillMd
  rw [enhancedValidation_score, enhancedValidation_security, enhancedValidation_performance]
  refine ⟨⟨le_max_left _ _, ?_⟩, ⟨le_max_left _ _, ?_⟩, ⟨le_max_left _ _, ?_⟩⟩
  · apply max_le (by norm_num)
    split_ifs <;> omega
  · apply max_le (by norm_num)
    omega
  · apply max_le (by norm_num)
    omega

/-- C2: the template map is populated with the `openclaw` entry only, so for
the supported frameworks `langchain` and `autogen` the lookup yields nothing
and document generation fails with the missing-template error — contradicting
the documented never-block-on-missing-template policy. -/
theorem c2_missing_template_bug :
    templatesGet initializeEnhancedTemplates "langchain" = none ∧
    templatesGet initializeEnhancedTemplates "autogen" = none ∧
    (generateSkill initializeEnhancedTemplates (fun _ => some "content") "d" langReq).1 =
      Except.error "Skill generation failed: Template not found for framework: langchain" :=
  ⟨rfl, rfl, rfl⟩

/-- C3: dependency extraction is a stub returning the empty list, so for a
document and code file containing the same import path three times the output
contains that path zero times, not exactly once. -/
theorem c3_dependency_stub_bug :
    extractEnhancedDependencies c3doc [c3file] exReq = [] ∧
    (extractEnhancedDependencies c3doc [c3file] exReq).count "lodash" = 0 :=
  ⟨rfl, rfl⟩

/-- C4 (counterexample): on an input whose only security finding is the
environment-variable pattern, that finding lands in the blocking `errors`
list (not in `warnings`) and `isValid` is false. -/
theorem c4_counterexample :
    "Environment variable usage without validation" ∈ (enhancedValidation c4skill).errors ∧
    "Environment variable usage without validation" ∉ (enhancedValidation c4skill).warnings ∧
    (enhancedValidation c4skill).isValid = false :=
  ⟨by decide, by decide, by decide⟩

/-- C4 (amended): whenever the combined document-and-code text matches the
environment-variable risk pattern, the security pass records the finding as a
blocking error and the result has `isValid = false`. -/
theorem c4_amended_env_blocking (s : GeneratedSkill)
    (h : envRiskTest (allContentOf s.skillMd s.codeFiles) = true) :
    "Environment variable usage without validation" ∈ (enhancedValidation s).errors ∧
    (enhancedValidation s).isValid = false := by
  have hmem : "Environment variable usage without validation" ∈ (enhancedValidation s).errors := by
    rw [enhancedValidation_errors]
    apply List.mem_append_right
    rw [validateSecurity_critical]
    apply List.mem_append_right
    rw [if_pos h]
    simp
  refine ⟨hmem, ?_⟩
  rw [enhancedValidation_isValid]
  have hne : (enhancedValidation s).errors ≠ [] := List.ne_nil_of_mem hmem
  cases herr : (enhancedValidation s).errors with
  | nil => exact absurd herr hne
  | cons a t => rfl

/-- C4 (amended, witness): instance of the amended claim on a concrete input
whose only finding is `process.env.API_KEY`. -/
theorem c4_amended_env_blocking_witness :
    envRiskTest (allContentOf c4skill.skillMd c4skill.codeFiles) = true ∧
    "Environment variable usage without validation" ∈ (enhancedValidation c4skill).errors ∧
    (enhancedValidation c4skill).isValid = false := by
  have h : envRiskTest (allContentOf c4skill.skillMd c4skill.codeFiles) = true := by decide
  exact ⟨h, (c4_amended_env_blocking c4skill h).1, (c4_amended_env_blocking c4skill h).2⟩

/-- C5 (counterexample): for a request whose complexity is the unrecognized
non-empty value `expert`, the complexity-guidelines section of the prompt is
the JS-missing-key rendering `undefined`, not the intermediate guideline. -/
theorem c5_counterexample :
    complexityGuidelineFor c5req = "undefined" ∧
    complexityGuidelineFor c5req ≠ (complexityGuidelines "intermediate").getD "undefined" :=
  ⟨by decide, by decide⟩

/-- C5 (amended): for every request whose complexity holds an unrecognized
non-empty value, prompt composition renders `undefined` (the stringified JS
missing-key lookup) in the complexity-guidelines section; the intermediate
guideline is selected only when complexity is absent or empty.  Composition
itself is a total function and never fails. -/
theorem c5_amended_unknown_complexity (r : SkillGenerationRequest) (c : String)
    (hc : r.complexity = some c) (h0 : c ≠ "") (h1 : c ≠ "simple")
    (h2 : c ≠ "intermediate") (h3 : c ≠ "advanced") :
    complexityGuidelineFor r = "undefined" := by
  unfold complexityGuidelineFor jsOr
  rw [hc]
  simp only [if_neg h0]
  unfold complexityGuidelines
  simp [h1, h2, h3]

/-- C5 (amended, witness): the amended claim at the concrete value `expert`. -/
theorem c5_amended_unknown_complexity_witness :
    complexityGuidelineFor c5req = "undefined" :=
  c5_amended_unknown_complexity c5req "expert" rfl (by decide) (by decide) (by decide)
    (by decide)

/-- C6: metadata extraction is total (a total Lean function: it never fails),
always produces the fixed author and tag scheme, and on extraction failure
(no frontmatter) the name defaults to the slug of the request description,
the description to the request description, and the version to 1.0.0. -/
theorem c6_metadata_total (md : String) (req : SkillGenerationRequest) :
    ((parseEnhancedMetadata md req).author = "AgentForge" ∧
     (parseEnhancedMetadata md req).tags = "generated" :: "agentforge" :: req.features ∧
     (parseEnhancedMetadata md req).agentforge.complexity = jsOr req.complexity "intermediate") ∧
    (extractFrontmatter md = none →
      (parseEnhancedMetadata md req).name = generateSkillName req.description ∧
      (parseEnhancedMetadata md req).description = req.description ∧
      (parseEnhancedMetadata md req).version = "1.0.0") := by
  cases h : extractFrontmatter md with
  | none => simp [parseEnhancedMetadata, h]
  | some fm =>
    constructor
    · simp [parseEnhancedMetadata, h]
    · intro hn
      simp at hn

/-- C6 (witness): the empty document has no frontmatter and yields the
request-derived defaults. -/
theorem c6_metadata_total_witness :
    extractFrontmatter "" = none ∧
    (parseEnhancedMetadata "" exReq).name = generateSkillName "weather forecasting skill" ∧
    (parseEnhancedMetadata "" exReq).description = "weather forecasting skill" ∧
    (parseEnhancedMetadata "" exReq).version = "1.0.0" := by
  have h := (c6_metadata_total "" exReq).2 rfl
  exact ⟨rfl, h.1, h.2.1, h.2.2⟩

/-- C7: the request validator fails exactly when the description is
empty/whitespace-only or the framework is outside the closed enumeration
(checking no other field), and `generateSkill` performs this check before any
provider call: on an invalid request the provider call count is zero. -/
theorem c7_validate_request (r : SkillGenerationRequest) :
    (isErr (validateRequest r) = true ↔
      (jsTrimStr r.description = "" ∨
        r.framework ∉ (["openclaw", "langchain", "autogen"] : List String))) ∧
    (∀ (templates : List (String × SkillTemplate)) (provider : String → Option String)
        (now : String), isErr (validateRequest r) = true →
      (generateSkill templates provider now r).2 = 0 ∧
      isErr (generateSkill templates provider now r).1 = true) := by
  constructor
  · unfold validateRequest
    by_cases h1 : jsTrimStr r.description = ""
    · simp [h1, isErr]
    · by_cases h2 : r.framework ∈ (["openclaw", "langchain", "autogen"] : List String)
      · simp [h1, h2, isErr]
      · simp [h1, h2, isErr]
  · intro templates provider now h
    unfold generateSkill
    cases hv : validateRequest r with
    | error e => exact ⟨rfl, rfl⟩
    | ok u =>
      rw [hv] at h
      exact Bool.noConfusion h

/-- C7 (witness): a whitespace-only description is rejected with zero provider
calls. -/
theorem c7_validate_request_witness :
    (generateSkill initializeEnhancedTemplates (fun _ => some "x") "d" wsReq).2 = 0 ∧
    isErr (generateSkill initializeEnhancedTemplates (fun _ => some "x") "d" wsReq).1 = true :=
  (c7_validate_request wsReq).2 initializeEnhancedTemplates (fun _ => some "x") "d" (by decide)

/-- C8: the name-slug function (a pure Lean function, hence deterministic)
produces only lowercase letters, digits, and hyphens, and its result has
length at most 50. -/
theorem c8_slug_charset_length (s : String) :
    (∀ c ∈ (generateSkillName s).data,
      ('a' ≤ c ∧ c ≤ 'z') ∨ ('0' ≤ c ∧ c ≤ '9') ∨ c = '-') ∧
    (generateSkillName s).length ≤ 50 := by
  constructor
  · intro c hc
    have hc2 : c ∈ collapseGo false ((s.data.map Char.toLower).filter keepNameChar) :=
      List.take_subset 50 _ hc
    exact collapseGo_mem_good _ false c (fun x hx => (List.mem_filter.mp hx).2) hc2
  · show ((collapseGo false ((s.data.map Char.toLower).filter keepNameChar)).take 50).length ≤ 50
    rw [List.length_take]
    exact min_le_left _ _

/-- C8 (witness): the slug of the sample description contains the letter `w`,
which the theorem certifies to be in the allowed character set, and the slug
length is at most 50. -/
theorem c8_slug_charset_length_witness :
    'w' ∈ (generateSkillName "weather forecasting skill").data ∧
    (('a' ≤ 'w' ∧ 'w' ≤ 'z') ∨ ('0' ≤ 'w' ∧ 'w' ≤ '9') ∨ 'w' = '-') ∧
    (generateSkillName "weather forecasting skill").length ≤ 50 :=
  ⟨by decide, (c8_slug_charset_length "weather forecasting skill").1 'w' (by decide),
    (c8_slug_charset_length "weather forecasting skill").2⟩

/-- C9 (counterexample): appending one additional occurrence of the
environment-variable risk pattern (`process.env.trycatch`) to an otherwise
identical empty input raises the security score from 90 to 95, because the
occurrence also introduces the substring `try` and removes the 10-point
no-error-handling deduction while adding only a 5-point pattern deduction. -/
theorem c9_counterexample :
    isRiskOccurrence c9file.content = true ∧
    (enhancedValidation c9ex1).security_score = 90 ∧
    (enhancedValidation c9ex2).security_score = 95 ∧
    (enhancedValidation c9ex1).security_score < (enhancedValidation c9ex2).security_score :=
  ⟨by decide, by decide, by decide, by decide⟩

/-- C9 (amended): appending one additional occurrence of a risk pattern (as an
additional code file) never increases the security score, provided the
presence of error-handling vocabulary (`try`/`catch`) in the combined text is
unchanged by the addition. -/
theorem c9_amended_monotone (s : GeneratedSkill) (f : CodeFile)
    (hocc : isRiskOccurrence f.content = true)
    (hnh : noErrorHandling (allContentOf s.skillMd (s.codeFiles ++ [f])) =
      noErrorHandling (allContentOf s.skillMd s.codeFiles)) :
    (enhancedValidation { s with codeFiles := s.codeFiles ++ [f] }).security_score ≤
      (enhancedValidation s).security_score := by
  obtain ⟨r, hr⟩ := allContentOf_concat s.skillMd s.codeFiles f
  rw [enhancedValidation_security, enhancedValidation_security]
  have hproj1 : ({ s with codeFiles := s.codeFiles ++ [f] } : GeneratedSkill).skillMd =
      s.skillMd := rfl
  have hproj2 : ({ s with codeFiles := s.codeFiles ++ [f] } : GeneratedSkill).codeFiles =
      s.codeFiles ++ [f] := rfl
  rw [hproj1, hproj2, validateSecurity_scoreDeduction, validateSecurity_scoreDeduction, hr]
  rw [hr] at hnh
  have hded :
      (if evalRiskTest (allContentOf s.skillMd s.codeFiles) then 30 else 0) +
      (if execRiskTest (allContentOf s.skillMd s.codeFiles) then 25 else 0) +
      (if innerHTMLRiskTest (allContentOf s.skillMd s.codeFiles) then 15 else 0) +
      (if envRiskTest (allContentOf s.skillMd s.codeFiles) then 5 else 0) +
      (if noErrorHandling (allContentOf s.skillMd s.codeFiles) then 10 else 0) ≤
      (if evalRiskTest (allContentOf s.skillMd s.codeFiles ++ r) then 30 else 0) +
      (if execRiskTest (allContentOf s.skillMd s.codeFiles ++ r) then 25 else 0) +
      (if innerHTMLRiskTest (allContentOf s.skillMd s.codeFiles ++ r) then 15 else 0) +
      (if envRiskTest (allContentOf s.skillMd s.codeFiles ++ r) then 5 else 0) +
      (if noErrorHandling (allContentOf s.skillMd s.codeFiles ++ r) then 10 else 0) := by
    have m1 := ite_ded_mono (evalRiskTest (allContentOf s.skillMd s.codeFiles))
      (evalRiskTest (allContentOf s.skillMd s.codeFiles ++ r)) 30
      (fun hh => evalRiskTest_append _ r hh)
    have m2 := ite_ded_mono (execRiskTest (allContentOf s.skillMd s.codeFiles))
      (execRiskTest (allContentOf s.skillMd s.codeFiles ++ r)) 25
      (fun hh => execRiskTest_append _ r hh)
    have m3 := ite_ded_mono (innerHTMLRiskTest (allContentOf s.skillMd s.codeFiles))
      (innerHTMLRiskTest (allContentOf s.skillMd s.codeFiles ++ r)) 15
      (fun hh => innerHTMLRiskTest_append _ r hh)
    have m4 := ite_ded_mono (envRiskTest (allContentOf s.skillMd s.codeFiles))
      (envRiskTest (allContentOf s.skillMd s.codeFiles ++ r)) 5
      (fun hh => envRiskTest_append _ r hh)
    rw [hnh]
    omega
  apply max_le_max (le_refl (0 : Int))
  omega

/-- C9 (amended, witness): with `try` already present, appending an `eval(`
occurrence keeps the try/catch presence unchanged and the security score does
not increase. -/
theorem c9_amended_monotone_witness :
    isRiskOccurrence c9wfile.content = true ∧
    (enhancedValidation { c9wskill with codeFiles := c9wskill.codeFiles ++ [c9wfile] }).security_score ≤
      (enhancedValidation c9wskill).security_score := by
  have h1 : isRiskOccurrence c9wfile.content = true := by decide
  have h2 : noErrorHandling (allContentOf c9wskill.skillMd (c9wskill.codeFiles ++ [c9wfile])) =
      noErrorHandling (allContentOf c9wskill.skillMd c9wskill.codeFiles) := by decide
  exact ⟨h1, c9_amended_monotone c9wskill c9wfile h1 h2⟩

/-- C10: the supporting code-file and test-file generators return the empty
list for every request and metadata, and consequently every successfully
generated skill record has empty `codeFiles` and `testFiles`. -/
theorem c10_empty_supporting_files (req : SkillGenerationRequest) (m : SkillMetadata)
    (templates : List (String × SkillTemplate)) (provider : String → Option String)
    (now : String) (result : GeneratedSkill) :
    generateEnhancedCodeFiles req m = [] ∧ generateEnhancedTestFiles req m = [] ∧
    ((generateSkill templates provider now req).1 = Except.ok result →
      result.codeFiles = [] ∧ result.testFiles = []) := by
  refine ⟨rfl, rfl, ?_⟩
  intro h
  unfold generateSkill at h
  split at h
  · simp at h
  · split at h
    · simp at h
    · split at h
      · simp at h
      · injection h with h3
        subst h3
        exact ⟨rfl, rfl⟩

/-- C10 (witness): an end-to-end run of the pipeline on a valid request
succeeds and its record has empty code-file and test-file lists. -/
theorem c10_empty_supporting_files_witness :
    ∃ result, c10run.1 = Except.ok result ∧ result.codeFiles = [] ∧ result.testFiles = [] := by
  cases h : c10run.1 with
  | error e =>
    have hok : isErr c10run.1 = false := by decide
    rw [h] at hok
    simp [isErr] at hok
  | ok result =>
    have hh := (c10_empty_supporting_files exReq exMetadata initializeEnhancedTemplates
      (fun _ => some "hello world") "2026-01-01T00:00:00.000Z" result).2.2 h
    exact ⟨result, rfl, hh.1, hh.2⟩

end AgentForge
